import Mathlib

/-!
Verification of the Model Versioning & Serving core of the anomaly-detection
repository: the training pipeline (`src/services/training_service/main.py`
together with `src/shared/core/data_models.py` and
`src/shared/models/anomaly/ml_model.py` / `train_models.py`), the statistic
engine's scoring rule, and the inference pipeline
(`src/services/inference_service/main.py`).

Modelling conventions:
* Python floats are modelled as rationals (`ℚ`) for the finite case; to
  express the behaviour of the training pipeline on non-finite inputs
  (NaN / ±infinity reach the endpoint because neither `json.loads` nor the
  pydantic `float` fields reject them), training values live in the type
  `Val` = finite rational | NaN | +inf | -inf, with IEEE-754 comparison and
  propagation rules made explicit where the source touches them.
* `numpy.std` returns the square root of the population variance.  The square
  root of a rational is irrational, so the embedding represents a model's
  `std` field by its square, the population variance (`stdSq`).  Every use the
  source makes of `std` downstream of `fit` in the training service —
  storing it, comparing it for equality with a stored value, and the
  `std == 0` degeneracy test — factors through the strictly monotone
  bijection x ↦ √x on the nonnegative reals, so this representation is
  faithful.  (The inference service reads `std` itself back from the store
  and uses it numerically; there the parameters are free inputs, so they are
  modelled directly as rationals.)
* Database rows are lists of records in insertion order; a SQLAlchemy
  `query(...).filter(...).all()` without `ORDER BY` is modelled as returning
  matching rows in insertion order, and `.first()` as the head of that list.
* Version tags are the strings `"v1"`, `"v2"`, …  Every row committed by the
  training service carries such a tag, and the service's version loop parses
  exactly these tags back to their numbers, so versions are modelled by their
  number (`Nat`).
* A Python `ValueError` raised inside the endpoint is caught and turned into
  an HTTP 422 response carrying the message; the embedding returns
  `Except String`, where `.error msg` is that 422 response and implies the
  transaction was rolled back (no store change).
-/

/-- A Python/IEEE-754 double as seen by the training pipeline: a finite value
(modelled as an exact rational), NaN, or a signed infinity. -/
inductive Val
  | fin (q : ℚ)
  | nan
  | pinf
  | ninf
deriving DecidableEq, Repr

namespace Val

/-- Python `==` on floats: NaN compares unequal to everything (itself
included); finite values and infinities compare by value. -/
def pyEq : Val → Val → Bool
  | fin a, fin b => a == b
  | pinf, pinf => true
  | ninf, ninf => true
  | _, _ => false

/-- Whether the value is finite. -/
def isFin : Val → Bool
  | fin _ => true
  | _ => false

/-- Whether the value is NaN. -/
def isNan : Val → Bool
  | nan => true
  | _ => false

/-- The rational carried by a finite value (junk `0` otherwise; only applied
to finite values). -/
def toQ : Val → ℚ
  | fin q => q
  | _ => 0

end Val

/-- Arithmetic mean of a list of rationals (`numpy.mean` on finite input). -/
def qMean (qs : List ℚ) : ℚ := qs.sum / qs.length

/-- Population variance of a list of rationals: `numpy.std` squared on finite
input (divide by N, not N-1). -/
def qVariance (qs : List ℚ) : ℚ :=
  (qs.map (fun x => (x - qMean qs) ^ 2)).sum / qs.length

/-- `numpy.mean` on doubles: NaN if any input is NaN or both infinities
occur; the common infinity if one occurs; otherwise the exact mean. -/
def valMean (vs : List Val) : Val :=
  if vs.any Val.isNan then Val.nan
  else if vs.any (· == Val.pinf) && vs.any (· == Val.ninf) then Val.nan
  else if vs.any (· == Val.pinf) then Val.pinf
  else if vs.any (· == Val.ninf) then Val.ninf
  else Val.fin (qMean (vs.map Val.toQ))

/-- `numpy.std` squared on doubles.  Any non-finite input makes the result
NaN (the deviation of an infinite point from the mean is NaN or the mean
itself is NaN); on finite input it is the population variance. -/
def valStdSq (vs : List Val) : Val :=
  if vs.any (fun v => !v.isFin) then Val.nan
  else Val.fin (qVariance (vs.map Val.toQ))

/-- One step of building the Python `set` of the values: keep the element
unless an already-kept element compares `==` to it. -/
def dedupStep (acc : List Val) (v : Val) : List Val :=
  if acc.any (fun u => u.pyEq v) then acc else acc ++ [v]

/-- Size of the Python `set` built from a list of float objects:
deduplication by `==`, under which NaN never merges with anything (distinct
NaN objects, as produced by parsing a request, all stay in the set). -/
def pyUniqueCount (vs : List Val) : Nat :=
  (vs.foldl dedupStep []).length

/-- Python `list == sorted(list)` for the timestamp list: true iff the list
is nondecreasing. -/
def nondecreasing : List Int → Bool
  | [] => true
  | [_] => true
  | a :: b :: rest => decide (a ≤ b) && nondecreasing (b :: rest)

/-- `AnomalyTrainRequest` (src/shared/models/anomaly/train_models.py):
`timestamps`, `values`, and a `threshold` defaulting to 3.0.  The threshold is
a plain pydantic float with no field constraint. -/
structure TrainReq where
  timestamps : List Int
  values : List Val
  threshold : ℚ
deriving DecidableEq, Repr

/-- `TimeSeries.from_lists` followed by the `validate_data_points` pydantic
validator (src/shared/core/data_models.py): reject a length mismatch, an
empty series, and timestamps that are not already sorted; otherwise produce
the `(timestamp, value)` data points. -/
def fromLists (ts : List Int) (vs : List Val) : Except String (List (Int × Val)) :=
  if ts.length ≠ vs.length then
    .error "Timestamps and values must have the same length"
  else
    let data := ts.zip vs
    if data.isEmpty then .error "TimeSeries cannot be empty"
    else if !nondecreasing (data.map Prod.fst) then
      .error "DataPoints must be sorted by timestamp"
    else .ok data

/-- `AnomalyDetectionModel.fit` (src/shared/models/anomaly/ml_model.py),
including `TimeSeries.validate_for_training`: reject fewer than 2 points and
constant values (constancy judged by the size of the Python `set` of the
values), compute mean and (squared) std, and reject a zero std.  Returns the
fitted `(mean, stdSq)`. -/
def fit (data : List (Int × Val)) : Except String (Val × Val) :=
  if data.length < 2 then
    .error ("Insufficient training data (minimum 2 points required, got " ++
      toString data.length ++ ")")
  else if pyUniqueCount (data.map Prod.snd) == 1 then
    .error "Constant values detected - cannot train model"
  else
    let vals := data.map Prod.snd
    let mean := valMean vals
    let stdSq := valStdSq vals
    if stdSq.pyEq (Val.fin 0) then
      .error "Standard deviation is zero - cannot detect anomalies"
    else .ok (mean, stdSq)

/-- A row of the `trained_models` table (src/shared/database/models.py),
restricted to the fields the claims mention.  `stdSq` represents the stored
`std` by its square (see the header comment); `version` is the number n of
the tag "vn". -/
structure TrainedModelRow where
  series_id : String
  mean : Val
  stdSq : Val
  threshold : ℚ
  version : Nat
  training_points : Nat
  is_active : Bool
deriving DecidableEq, Repr

/-- A row of the `training_data` table. -/
structure TrainingDataRow where
  series_id : String
  version : Nat
  timestamps : List Int
  values : List Val
  data_points_count : Nat
deriving DecidableEq, Repr

/-- The durable Series Store: the two tables the training service writes,
rows in insertion order. -/
structure Store where
  models : List TrainedModelRow
  trainingData : List TrainingDataRow
deriving DecidableEq, Repr

/-- The empty store. -/
def Store.empty : Store := ⟨[], []⟩

/-- `AnomalyTrainResponse`, restricted to the fields the claims mention. -/
structure TrainResp where
  series_id : String
  model_version : Nat
  points_used : Nat
deriving DecidableEq, Repr

/-- The version-scan loop of `fit_model`: the maximum version number among
the given rows (0 when there are none).  The source parses the "v…" tags;
every row committed by the service carries such a tag. -/
def maxVersionNum (rows : List TrainedModelRow) : Nat :=
  rows.foldl (fun m r => max m r.version) 0

/-- The deactivation `UPDATE` of `fit_model`: rows of the series that are
active become inactive; every other row is untouched. -/
def deact (sid : String) (r : TrainedModelRow) : TrainedModelRow :=
  if r.series_id == sid && r.is_active then { r with is_active := false } else r

/-- The `POST /fit/{series_id}` endpoint `fit_model`
(src/services/training_service/main.py).  Faithful to the source, including
its variable shadowing: the loop `for model in all_versions` rebinds the name
`model`, so when `all_versions` is nonempty the parameters written to the new
row are read from the last row the query returned (insertion order), not from
the just-fitted model; only when the series has no rows at all does `model`
still denote the fitted model.  `.error msg` is the 422 response produced
from the raised `ValueError` after `db.rollback()`; no store change occurs
on that path. -/
def fitModel (sid : String) (req : TrainReq) (db : Store) :
    Except String (TrainResp × Store) :=
  match fromLists req.timestamps req.values with
  | .error e => .error e
  | .ok data =>
    match fit data with
    | .error e => .error e
    | .ok fitted =>
      let allVersions := db.models.filter (fun r => r.series_id == sid)
      let nextVer := maxVersionNum allVersions + 1
      let committed : Val × Val × ℚ :=
        match allVersions.getLast? with
        | some row => (row.mean, row.stdSq, row.threshold)
        | none => (fitted.1, fitted.2, req.threshold)
      let dbModel : TrainedModelRow :=
        { series_id := sid, mean := committed.1, stdSq := committed.2.1,
          threshold := committed.2.2, version := nextVer,
          training_points := req.timestamps.length, is_active := true }
      let models' :=
        if allVersions.isEmpty then db.models
        else db.models.map (deact sid)
      let td : TrainingDataRow :=
        { series_id := sid, version := nextVer, timestamps := req.timestamps,
          values := req.values, data_points_count := req.timestamps.length }
      .ok ({ series_id := sid, model_version := nextVer,
             points_used := req.timestamps.length },
           { models := models' ++ [dbModel],
             trainingData := db.trainingData ++ [td] })

/-- Rows of the series, in insertion order. -/
def seriesRows (db : Store) (s : String) : List TrainedModelRow :=
  db.models.filter (fun r => r.series_id == s)

/-- Active rows of the series. -/
def activeRows (db : Store) (s : String) : List TrainedModelRow :=
  db.models.filter (fun r => r.series_id == s && r.is_active)

/-- Version numbers committed for the series, in insertion order. -/
def seriesVersions (db : Store) (s : String) : List Nat :=
  (seriesRows db s).map (·.version)

/-- The Series Store read the inference fallback performs:
`query(TrainedModel).filter(series_id, is_active).first()`. -/
def getActive (db : Store) (s : String) : Option TrainedModelRow :=
  (activeRows db s).head?

/-! ## Statistic Engine: scoring -/

/-- `AnomalyDetectionModel.predict` (src/shared/models/anomaly/ml_model.py):
`abs(data_point.value - self.mean) > self.threshold * self.std`.  Parameters
are finite floats read back from the store, modelled as rationals; `std`
here is the stored standard deviation itself. -/
def predictB (value mean std threshold : ℚ) : Bool :=
  decide (threshold * std < |value - mean|)

/-- The dictionary returned by `AnomalyDetectionModel.predict_with_details`,
restricted to the fields any caller reads. -/
structure PredDetails where
  anomaly : Bool
  deviation : ℚ
  confidence : ℚ
deriving DecidableEq, Repr

/-- `AnomalyDetectionModel.predict_with_details`: `deviation =
abs(value - mean) / std`, anomaly iff `deviation > threshold`, confidence
`min(deviation / threshold, 1.0)` when anomalous and `1.0` otherwise. -/
def predictWithDetailsB (value mean std threshold : ℚ) : PredDetails :=
  let deviation := |value - mean| / std
  { anomaly := decide (threshold < deviation)
    deviation := deviation
    confidence := if threshold < deviation then min (deviation / threshold) 1 else 1 }

/-! ## Inference service -/

/-- Model parameters as the inference service holds them (the dict built
from the cache or from the active `TrainedModel` row). -/
structure ModelParams where
  mean : ℚ
  std : ℚ
  threshold : ℚ
  version : Nat
deriving DecidableEq, Repr

/-- `AnomalyPredictRequest`: a timestamp and a value (the timestamp string
is assumed well-formed and modelled by its integer value). -/
structure PredReq where
  timestamp : Int
  value : ℚ
deriving DecidableEq, Repr

/-- `AnomalyPredictResponse`, restricted to the fields the claims mention. -/
structure PredResp where
  anomaly : Bool
  model_version : Nat
deriving DecidableEq, Repr

/-- A row of the `prediction_logs` table, restricted to the fields the
claims mention. -/
structure LogRow where
  series_id : String
  timestamp : Int
  value : ℚ
  prediction : Bool
  model_version : Nat
deriving DecidableEq, Repr

/-- Outcome of one `redis_client.get`: a deserialized hit, a clean miss
(`None`), or a raised `redis` error. -/
inductive CacheRead (α : Type)
  | hit (a : α)
  | miss
  | crash
deriving DecidableEq, Repr

/-- A row of the `trained_models` table as the inference service reads it:
the stored float parameters modelled as rationals. -/
structure InfModelRow where
  series_id : String
  mean : ℚ
  std : ℚ
  threshold : ℚ
  version : Nat
  is_active : Bool
deriving DecidableEq, Repr

/-- The environment of one `/predict` call: what each external interaction
would do if performed.  The prediction cache is keyed by
`"prediction:{series_id}:{timestamp}"` — a function of the timestamp only
(the request's value is not part of the key).  The write flags are `false`
when the corresponding `redis_client.setex` / `db.commit` would raise. -/
structure InfEnv where
  predCacheRead : Int → CacheRead PredResp
  modelCacheRead : CacheRead ModelParams
  modelCacheWriteOk : Bool
  logWriteOk : Bool
  predCacheWriteOk : Bool

/-- HTTP outcome of one `/predict` call: 200 with a body, the 404 raised
when no active model exists, or the 500 produced by the catch-all
`except Exception` handler. -/
inductive InfResult
  | ok (r : PredResp)
  | notFound
  | serverError
deriving DecidableEq, Repr

/-- Result of one `/predict` call: the HTTP outcome, the prediction-log
table after the call, and the `(timestamp, response)` entry written to the
prediction cache, if any. -/
structure PredOutcome where
  result : InfResult
  log : List LogRow
  predCacheWrite : Option (Int × PredResp)
deriving DecidableEq, Repr

/-- The active-model database fallback of `predict`:
`query(TrainedModel).filter(series_id, is_active).first()` turned into the
parameter dict. -/
def getActiveParams (models : List InfModelRow) (s : String) : Option ModelParams :=
  ((models.filter (fun r => r.series_id == s && r.is_active)).head?).map
    (fun r => ⟨r.mean, r.std, r.threshold, r.version⟩)

/-- Tail of `predict` once model parameters are resolved: score the point
with `predict_with_details`, commit the `PredictionLog` row, then cache the
response under the `(series_id, timestamp)` key.  A raise in the log commit
or the cache write propagates to the catch-all handler and becomes a 500;
the log row survives a failed cache write because it was committed first. -/
def scoreAndLog (env : InfEnv) (log : List LogRow) (sid : String)
    (req : PredReq) (p : ModelParams) : PredOutcome :=
  let details := predictWithDetailsB req.value p.mean p.std p.threshold
  let resp : PredResp := ⟨details.anomaly, p.version⟩
  if env.logWriteOk then
    let log' := log ++ [⟨sid, req.timestamp, req.value, details.anomaly, p.version⟩]
    if env.predCacheWriteOk then
      ⟨.ok resp, log', some (req.timestamp, resp)⟩
    else ⟨.serverError, log', none⟩
  else ⟨.serverError, log, none⟩

/-- The `POST /predict/{series_id}` endpoint
(src/services/inference_service/main.py).  Order of interactions, as in the
source: prediction-cache read (hit returns the cached response verbatim);
model-cache read; on a clean miss, the Series Store active-row query (404
when absent) followed by a model-cache write-through; scoring; log commit;
prediction-cache write.  Any raised cache or database error reaches the
catch-all `except Exception` handler and is returned as a 500. -/
def predictEndpoint (env : InfEnv) (models : List InfModelRow)
    (log : List LogRow) (sid : String) (req : PredReq) : PredOutcome :=
  match env.predCacheRead req.timestamp with
  | .crash => ⟨.serverError, log, none⟩
  | .hit r => ⟨.ok r, log, none⟩
  | .miss =>
    match env.modelCacheRead with
    | .crash => ⟨.serverError, log, none⟩
    | .hit p => scoreAndLog env log sid req p
    | .miss =>
      match getActiveParams models sid with
      | none => ⟨.notFound, log, none⟩
      | some p =>
        if env.modelCacheWriteOk then scoreAndLog env log sid req p
        else ⟨.serverError, log, none⟩

deriving instance DecidableEq for Except

/-- Whether an endpoint call produced a success response rather than an
error response. -/
def isOkE {ε α : Type} : Except ε α → Bool
  | .ok _ => true
  | .error _ => false

/-- Store after training series "s1" on values [1, 2, 3] with threshold 3:
one row, version 1, mean 2, variance 2/3. -/
def c1db1 : Store :=
  ⟨[⟨"s1", .fin 2, .fin (2/3), 3, 1, 3, true⟩],
   [⟨"s1", 1, [1, 2, 3], [.fin 1, .fin 2, .fin 3], 3⟩]⟩

/-- Store after then retraining "s1" on values [10, 20, 30] with threshold 2:
the v2 row carries v1's parameters because of the shadowing in `fit_model`. -/
def c1db2 : Store :=
  ⟨[⟨"s1", .fin 2, .fin (2/3), 3, 1, 3, false⟩,
    ⟨"s1", .fin 2, .fin (2/3), 3, 2, 3, true⟩],
   [⟨"s1", 1, [1, 2, 3], [.fin 1, .fin 2, .fin 3], 3⟩,
    ⟨"s1", 2, [4, 5, 6], [.fin 10, .fin 20, .fin 30], 3⟩]⟩

/-- Store after training series "w2" on values [10, 11, 9] with threshold 3
from the empty store: one row, version 1, mean 10, variance 2/3. -/
def c2wdb : Store :=
  ⟨[⟨"w2", .fin 10, .fin (2/3), 3, 1, 3, true⟩],
   [⟨"w2", 1, [100, 160, 220], [.fin 10, .fin 11, .fin 9], 3⟩]⟩

/-! ## Theorems -/

/-! ### Helper lemmas -/

theorem le_foldl_max (rows : List TrainedModelRow) (a b : Nat) (h : a ≤ b) :
    a ≤ rows.foldl (fun m r => max m r.version) b := by
  induction rows generalizing b with
  | nil => exact h
  | cons x xs ih => exact ih _ (le_trans h (le_max_left _ _))

theorem version_le_foldl (rows : List TrainedModelRow) (r : TrainedModelRow) :
    ∀ b : Nat, r ∈ rows → r.version ≤ rows.foldl (fun m r => max m r.version) b := by
  induction rows with
  | nil => intro b h; cases h
  | cons x xs ih =>
    intro b h
    rcases List.mem_cons.mp h with h' | hmem
    · subst h'; exact le_foldl_max xs _ _ (le_max_right _ _)
    · exact ih _ hmem

theorem version_le_maxVersionNum {r : TrainedModelRow} {rows : List TrainedModelRow}
    (h : r ∈ rows) : r.version ≤ maxVersionNum rows :=
  version_le_foldl rows r 0 h

theorem deact_series_id (sid : String) (r : TrainedModelRow) :
    (deact sid r).series_id = r.series_id := by
  unfold deact; split <;> rfl

theorem deact_version (sid : String) (r : TrainedModelRow) :
    (deact sid r).version = r.version := by
  unfold deact; split <;> rfl

theorem deact_not_active (sid : String) (r : TrainedModelRow) :
    (((deact sid r).series_id == sid) && (deact sid r).is_active) = false := by
  unfold deact
  cases hs : (r.series_id == sid) <;> cases ha : r.is_active <;> simp [hs, ha]

theorem deact_eq_self {sid : String} {r : TrainedModelRow}
    (h : (r.series_id == sid) = false) : deact sid r = r := by
  unfold deact; simp [h]

theorem fitModel_ok_inv {sid : String} {req : TrainReq} {db : Store}
    {resp : TrainResp} {db' : Store}
    (h : fitModel sid req db = .ok (resp, db')) :
    resp.model_version = maxVersionNum (seriesRows db sid) + 1 ∧
    ∃ mn sq : Val, ∃ th : ℚ,
      db'.models = (if (seriesRows db sid).isEmpty then db.models
                    else db.models.map (deact sid)) ++
        [{ series_id := sid, mean := mn, stdSq := sq, threshold := th,
           version := maxVersionNum (seriesRows db sid) + 1,
           training_points := req.timestamps.length, is_active := true }] := by
  cases hF : fromLists req.timestamps req.values with
  | error e => simp [fitModel, hF] at h
  | ok data =>
    cases hfit : fit data with
    | error e => simp [fitModel, hF, hfit] at h
    | ok fitted =>
      simp only [fitModel, hF, hfit, seriesRows, Except.ok.injEq, Prod.mk.injEq] at h
      obtain ⟨hresp, hdb⟩ := h
      subst hresp hdb
      exact ⟨rfl, _, _, _, rfl⟩

theorem filter_map_deact (sid : String) (p : TrainedModelRow → Bool)
    (l : List TrainedModelRow)
    (hp : ∀ r, p (deact sid r) = p r)
    (hid : ∀ r, p r = true → deact sid r = r) :
    (l.map (deact sid)).filter p = l.filter p := by
  induction l with
  | nil => rfl
  | cons a l ih =>
    rw [List.map_cons, List.filter_cons, List.filter_cons, hp a]
    cases hpa : p a with
    | true => simp [hid a hpa, ih]
    | false => simp [ih]

theorem versions_filter_map_deact (sid s : String) (l : List TrainedModelRow) :
    ((l.map (deact sid)).filter (fun r => r.series_id == s)).map (·.version)
      = (l.filter (fun r => r.series_id == s)).map (·.version) := by
  rw [List.filter_map]
  have hpc : ((fun r : TrainedModelRow => r.series_id == s) ∘ deact sid)
      = fun r => r.series_id == s := by
    funext r
    simp [Function.comp, deact_series_id]
  rw [hpc, List.map_map]
  have hvc : ((fun r : TrainedModelRow => r.version) ∘ deact sid)
      = fun r => r.version := by
    funext r
    simp [Function.comp, deact_version]
  rw [hvc]

theorem active_filter_map_deact_nil (sid : String) (l : List TrainedModelRow) :
    (l.map (deact sid)).filter (fun r => r.series_id == sid && r.is_active) = [] := by
  rw [List.filter_eq_nil_iff]
  intro a ha
  obtain ⟨r, _, rfl⟩ := List.mem_map.mp ha
  simp [deact_not_active]

theorem fromLists_ok {ts : List Int} {vs : List Val} {data : List (Int × Val)}
    (h : fromLists ts vs = .ok data) :
    data = ts.zip vs ∧ ts.length = vs.length ∧ data ≠ [] := by
  simp only [fromLists] at h
  split_ifs at h with h1 h2 h3
  injection h with h'
  refine ⟨h'.symm, not_not.mp h1, ?_⟩
  intro hnil
  apply h2
  rw [h', hnil]
  rfl

theorem foldl_dedup_const (q : ℚ) (xs : List Val) (h : ∀ v ∈ xs, v = Val.fin q) :
    xs.foldl dedupStep [Val.fin q] = [Val.fin q] := by
  induction xs with
  | nil => rfl
  | cons x xs ih =>
    have hx : x = Val.fin q := h x (by simp)
    subst hx
    have hany : ([Val.fin q].any (fun u => u.pyEq (Val.fin q))) = true := by
      simp [Val.pyEq]
    rw [List.foldl_cons]
    unfold dedupStep
    rw [if_pos hany]
    exact ih (fun v hv => h v (by simp [hv]))

theorem pyUniqueCount_const (q : ℚ) (xs : List Val) (hne : xs ≠ [])
    (h : ∀ v ∈ xs, v = Val.fin q) : pyUniqueCount xs = 1 := by
  obtain ⟨x, rest, rfl⟩ := List.exists_cons_of_ne_nil hne
  have hx : x = Val.fin q := h x (by simp)
  subst hx
  unfold pyUniqueCount
  rw [List.foldl_cons]
  have hstep : dedupStep [] (Val.fin q) = [Val.fin q] := rfl
  rw [hstep, foldl_dedup_const q rest (fun v hv => h v (by simp [hv]))]
  rfl

theorem isOkE_fit_short {data : List (Int × Val)} (h : data.length < 2) :
    isOkE (fit data) = false := by
  unfold fit
  rw [if_pos h]
  rfl

theorem isOkE_fit_const {data : List (Int × Val)}
    (h2 : ¬ data.length < 2)
    (hcnt : pyUniqueCount (data.map Prod.snd) = 1) :
    isOkE (fit data) = false := by
  unfold fit
  rw [if_neg h2, if_pos (by simp [hcnt])]
  rfl

theorem pyEq_nan_false (u : Val) : u.pyEq Val.nan = false := by
  cases u <;> rfl

theorem pyEq_true_not_nan {u v : Val} (h : u.pyEq v = true) : u.isNan = false := by
  cases u <;> cases v <;> simp [Val.pyEq, Val.isNan] at h ⊢

theorem mem_foldl_dedup {u : Val} {acc : List Val} (xs : List Val) (h : u ∈ acc) :
    u ∈ xs.foldl dedupStep acc := by
  induction xs generalizing acc with
  | nil => exact h
  | cons x xs ih =>
    rw [List.foldl_cons]
    apply ih
    unfold dedupStep
    split
    · exact h
    · exact List.mem_append_left _ h

theorem countP_isNan_foldl (xs : List Val) (acc : List Val) :
    (xs.foldl dedupStep acc).countP (fun v => v.isNan)
      = acc.countP (fun v => v.isNan) + xs.countP (fun v => v.isNan) := by
  induction xs generalizing acc with
  | nil => simp
  | cons x xs ih =>
    rw [List.foldl_cons, ih, List.countP_cons]
    cases hx : x with
    | nan =>
      have hstep : dedupStep acc Val.nan = acc ++ [Val.nan] := by
        unfold dedupStep
        rw [if_neg]
        simp only [List.any_eq_true, not_exists]
        intro u
        simp [pyEq_nan_false]
      rw [hstep, List.countP_append]
      simp [Val.isNan]
      omega
    | fin q =>
      have hcnt : (dedupStep acc (Val.fin q)).countP (fun v => v.isNan)
          = acc.countP (fun v => v.isNan) := by
        unfold dedupStep
        split
        · rfl
        · rw [List.countP_append]; simp [Val.isNan]
      rw [hcnt]
      simp [Val.isNan]
    | pinf =>
      have hcnt : (dedupStep acc Val.pinf).countP (fun v => v.isNan)
          = acc.countP (fun v => v.isNan) := by
        unfold dedupStep
        split
        · rfl
        · rw [List.countP_append]; simp [Val.isNan]
      rw [hcnt]
      simp [Val.isNan]
    | ninf =>
      have hcnt : (dedupStep acc Val.ninf).countP (fun v => v.isNan)
          = acc.countP (fun v => v.isNan) := by
        unfold dedupStep
        split
        · rfl
        · rw [List.countP_append]; simp [Val.isNan]
      rw [hcnt]
      simp [Val.isNan]

theorem exists_nonNan_foldl (xs : List Val) (acc : List Val) {v : Val}
    (hv : v ∈ xs) (hnn : v.isNan = false) :
    ∃ u ∈ xs.foldl dedupStep acc, u.isNan = false := by
  induction xs generalizing acc with
  | nil => cases hv
  | cons x xs ih =>
    rw [List.foldl_cons]
    rcases List.mem_cons.mp hv with h' | hmem
    · subst h'
      by_cases hany : (acc.any (fun u => u.pyEq v)) = true
      · obtain ⟨u, hu, hpe⟩ := List.any_eq_true.mp hany
        refine ⟨u, mem_foldl_dedup xs ?_, pyEq_true_not_nan hpe⟩
        unfold dedupStep
        rw [if_pos hany]
        exact hu
      · refine ⟨v, mem_foldl_dedup xs ?_, hnn⟩
        unfold dedupStep
        rw [if_neg hany]
        exact List.mem_append_right _ (by simp)
    · exact ih _ hmem

theorem two_le_length_of_two_mem {l : List Val} {u w : Val} (hu : u ∈ l)
    (hw : w ∈ l) (hne : u ≠ w) : 2 ≤ l.length := by
  cases l with
  | nil => cases hu
  | cons a t =>
    cases t with
    | nil =>
      rw [List.mem_singleton] at hu hw
      exact absurd (hu.trans hw.symm) hne
    | cons b t2 => simp [List.length_cons]

theorem pyUniqueCount_ge_two_of_nan {xs : List Val} (hlen : 2 ≤ xs.length)
    (hnan : Val.nan ∈ xs) : 2 ≤ pyUniqueCount xs := by
  unfold pyUniqueCount
  have hcnt : (xs.foldl dedupStep []).countP (fun v => v.isNan)
      = xs.countP (fun v => v.isNan) := by
    rw [countP_isNan_foldl]
    simp
  have hk1 : 1 ≤ xs.countP (fun v => v.isNan) :=
    List.countP_pos_iff.mpr ⟨Val.nan, hnan, rfl⟩
  by_cases hk : 2 ≤ xs.countP (fun v => v.isNan)
  · have : 2 ≤ (xs.foldl dedupStep []).countP (fun v => v.isNan) := by omega
    exact le_trans this (List.countP_le_length _)
  · have hex : ∃ v ∈ xs, v.isNan = false := by
      by_contra hall
      push_neg at hall
      have hallnan : ∀ a ∈ xs, (fun v : Val => v.isNan) a = true := by
        intro a ha
        have := hall a ha
        simpa using this
      have := List.countP_eq_length.mpr hallnan
      omega
    obtain ⟨v, hv, hnnv⟩ := hex
    obtain ⟨u, hu, hnnu⟩ := exists_nonNan_foldl xs [] hv hnnv
    have hwex : ∃ w ∈ xs.foldl dedupStep [], (fun v : Val => v.isNan) w = true :=
      List.countP_pos_iff.mp (by omega)
    obtain ⟨w, hw, hwnan⟩ := hwex
    refine two_le_length_of_two_mem hu hw ?_
    intro huw
    rw [huw] at hnnu
    simp only [hnnu] at hwnan
    cases hwnan



/-- C1: a successful retraining call does NOT commit the freshly fitted
parameters.  Evaluation of the code at a failing input: train "s1" on
[1, 2, 3] (fit yields mean 2), then retrain on [10, 20, 30] with threshold 2
(fit yields mean 20, variance 200/3), and observe that the committed active
version v2 carries v1's mean 2, variance 2/3 and threshold 3 — the loop
variable `model` in `fit_model` shadows the fitted model, so the parameters
written on a retrain are read from the previously stored row. -/
theorem fitModel_retrain_commits_stale_params :
    fitModel "s1" ⟨[1, 2, 3], [.fin 1, .fin 2, .fin 3], 3⟩ Store.empty
      = .ok (⟨"s1", 1, 3⟩, c1db1) ∧
    fitModel "s1" ⟨[4, 5, 6], [.fin 10, .fin 20, .fin 30], 2⟩ c1db1
      = .ok (⟨"s1", 2, 3⟩, c1db2) ∧
    getActive c1db2 "s1" = some ⟨"s1", .fin 2, .fin (2/3), 3, 2, 3, true⟩ ∧
    fit ([4, 5, 6].zip [.fin 10, .fin 20, .fin 30])
      = .ok (.fin 20, .fin (200/3)) ∧
    Val.fin 2 ≠ Val.fin 20 := by
  refine ⟨?_, ?_, ?_, ?_, ?_⟩ <;>
    norm_num +decide [fitModel, fromLists, fit, valMean, valStdSq, qMean,
      qVariance, pyUniqueCount, dedupStep, nondecreasing, maxVersionNum, deact,
      Val.pyEq, Val.isNan, Val.isFin, Val.toQ, seriesRows, activeRows,
      getActive, Store.empty, c1db1, c1db2]

/-- C5: a training request with threshold = -1 is not rejected: the endpoint
never invokes `validate_common_constraints` (the only place the
`threshold <= 0` check lives), so `fit_model` succeeds and commits version
v1 with the non-positive threshold stored. -/
theorem fitModel_commits_nonpositive_threshold :
    fitModel "s1" ⟨[1, 2], [.fin 1, .fin 2], -1⟩ Store.empty
      = .ok (⟨"s1", 1, 2⟩,
             ⟨[⟨"s1", .fin (3/2), .fin (1/4), -1, 1, 2, true⟩],
              [⟨"s1", 1, [1, 2], [.fin 1, .fin 2], 2⟩]⟩) ∧
    (getActive ⟨[⟨"s1", .fin (3/2), .fin (1/4), -1, 1, 2, true⟩],
                [⟨"s1", 1, [1, 2], [.fin 1, .fin 2], 2⟩]⟩ "s1").map
      (·.threshold) = some (-1) := by
  refine ⟨?_, ?_⟩ <;>
    norm_num +decide [fitModel, fromLists, fit, valMean, valStdSq, qMean,
      qVariance, pyUniqueCount, dedupStep, nondecreasing, maxVersionNum, deact,
      Val.pyEq, Val.isNan, Val.isFin, Val.toQ, seriesRows, activeRows,
      getActive, Store.empty]

/-- C6 counterexample: a training request whose timestamps arrive out of
order is rejected with the validation error raised by
`TimeSeries.validate_data_points`, not sorted and trained — while the same
data presented in timestamp order trains fine. -/
theorem fitModel_unsorted_rejected_counterexample :
    fitModel "s1" ⟨[200, 100], [.fin 1, .fin 2], 3⟩ Store.empty
      = .error "DataPoints must be sorted by timestamp" ∧
    fitModel "s1" ⟨[100, 200], [.fin 2, .fin 1], 3⟩ Store.empty
      = .ok (⟨"s1", 1, 2⟩,
             ⟨[⟨"s1", .fin (3/2), .fin (1/4), 3, 1, 2, true⟩],
              [⟨"s1", 1, [100, 200], [.fin 2, .fin 1], 2⟩]⟩) := by
  refine ⟨?_, ?_⟩ <;>
    norm_num +decide [fitModel, fromLists, fit, valMean, valStdSq, qMean,
      qVariance, pyUniqueCount, dedupStep, nondecreasing, maxVersionNum, deact,
      Val.pyEq, Val.isNan, Val.isFin, Val.toQ, seriesRows, Store.empty]

/-- C7 counterexample: a training request containing NaN passes every check
of the training pipeline (the value set has size 2, and `NaN == 0` is false,
so the zero-std guard does not fire) and commits an active version v1 whose
mean and std are NaN. -/
theorem fitModel_commits_nan_counterexample :
    fitModel "s1" ⟨[100, 200], [.fin 1, .nan], 3⟩ Store.empty
      = .ok (⟨"s1", 1, 2⟩,
             ⟨[⟨"s1", .nan, .nan, 3, 1, 2, true⟩],
              [⟨"s1", 1, [100, 200], [.fin 1, .nan], 2⟩]⟩) := by
  norm_num +decide [fitModel, fromLists, fit, valMean, valStdSq, qMean,
    qVariance, pyUniqueCount, dedupStep, nondecreasing, maxVersionNum, deact,
    Val.pyEq, Val.isNan, Val.isFin, Val.toQ, seriesRows, Store.empty]

/-- C8 counterexample: with a trained active model in the Series Store, a
raised cache error does not fall through to the store: a model-cache read
raise, a prediction-cache read raise, and a model-cache write raise each
surface as a 500 server error via the catch-all handler. -/
theorem predict_cache_crash_counterexample :
    predictEndpoint ⟨fun _ => .miss, .crash, true, true, true⟩
      [⟨"s1", 10, 1, 3, 1, true⟩] [] "s1" ⟨300, 15⟩
      = ⟨.serverError, [], none⟩ ∧
    predictEndpoint ⟨fun _ => .crash, .miss, true, true, true⟩
      [⟨"s1", 10, 1, 3, 1, true⟩] [] "s1" ⟨300, 15⟩
      = ⟨.serverError, [], none⟩ ∧
    predictEndpoint ⟨fun _ => .miss, .miss, false, true, true⟩
      [⟨"s1", 10, 1, 3, 1, true⟩] [] "s1" ⟨300, 15⟩
      = ⟨.serverError, [], none⟩ := by
  refine ⟨?_, ?_, ?_⟩ <;>
    norm_num +decide [predictEndpoint, scoreAndLog, getActiveParams,
      predictWithDetailsB]

/-- C9 counterexample: the model is resolved (model-cache hit) and the
classification is computable — the point is a clear anomaly — yet a failing
`PredictionLog` commit turns the request into a 500 server error instead of
returning the classification. -/
theorem predict_log_failure_counterexample :
    predictEndpoint ⟨fun _ => .miss, .hit ⟨10, 1, 3, 1⟩, true, false, true⟩
      [] [] "s1" ⟨300, 15⟩
      = ⟨.serverError, [], none⟩ ∧
    (predictWithDetailsB 15 10 1 3).anomaly = true := by
  refine ⟨?_, ?_⟩ <;>
    norm_num +decide [predictEndpoint, scoreAndLog, getActiveParams,
      predictWithDetailsB]

/-- C3: the direct predict operation classifies a value as an anomaly iff
`abs(value - mean) > threshold * std`, and for `std > 0` the detailed
prediction used by the inference path (`predict_with_details`, which
compares `abs(value - mean) / std` against the threshold) makes exactly the
same decision. -/
theorem predict_decision_rule_equiv (v m s t : ℚ) (hs : 0 < s) :
    (predictB v m s t = true ↔ |v - m| > t * s) ∧
    (predictWithDetailsB v m s t).anomaly = predictB v m s t := by
  constructor
  · simp [predictB, gt_iff_lt]
  · simp only [predictWithDetailsB, predictB]
    exact decide_eq_decide.mpr (lt_div_iff₀ hs)

/-- Witness for C3 at value 15, mean 10, std 1, threshold 3. -/
theorem predict_decision_rule_equiv_witness :
    (0 : ℚ) < 1 ∧
    ((predictB 15 10 1 3 = true ↔ |(15 : ℚ) - 10| > 3 * 1) ∧
     (predictWithDetailsB 15 10 1 3).anomaly = predictB 15 10 1 3) :=
  ⟨by norm_num, predict_decision_rule_equiv 15 10 1 3 (by norm_num)⟩

/-- C10: when the prediction cache holds an entry for the request's
`(series_id, timestamp)` key — the key the source builds from the series and
the timestamp only — the endpoint returns that cached response verbatim for
every submitted value, leaves the prediction log unchanged, writes nothing,
and consults neither the model cache nor the Series Store (the conclusion
holds for every model-cache behaviour and every store). -/
theorem predict_prediction_cache_memoization (env : InfEnv)
    (models : List InfModelRow) (log : List LogRow) (sid : String)
    (r : PredResp) (ts : Int) (h : env.predCacheRead ts = .hit r) :
    ∀ v : ℚ, predictEndpoint env models log sid ⟨ts, v⟩ = ⟨.ok r, log, none⟩ := by
  intro v
  simp [predictEndpoint, h]

/-- Witness for C10: a concrete cache hit is returned verbatim even though
the model cache would raise, every write would fail, and the store is
empty. -/
theorem predict_prediction_cache_memoization_witness :
    predictEndpoint ⟨fun _ => .hit ⟨false, 1⟩, .crash, false, false, false⟩
      [] [] "s1" ⟨300, 99⟩ = ⟨.ok ⟨false, 1⟩, [], none⟩ :=
  predict_prediction_cache_memoization
    ⟨fun _ => .hit ⟨false, 1⟩, .crash, false, false, false⟩ [] [] "s1"
    ⟨false, 1⟩ 300 rfl 99

/-- C2: a successful `fit_model` call for a series assigns the new version
as one past the maximum existing version number for that series (so the
first version is v1), which is strictly greater than every previously
committed version (never reused); afterwards exactly one row of that series
is active, and rows of every other series are untouched.  Failed calls roll
back and leave the store unchanged (the error result carries no store).  -/
theorem fitModel_version_and_active_invariant (sid : String) (req : TrainReq)
    (db : Store) (resp : TrainResp) (db' : Store)
    (h : fitModel sid req db = .ok (resp, db')) :
    resp.model_version = maxVersionNum (seriesRows db sid) + 1 ∧
    (∀ v ∈ seriesVersions db sid, v < resp.model_version) ∧
    seriesVersions db' sid = seriesVersions db sid ++ [resp.model_version] ∧
    (activeRows db' sid).length = 1 ∧
    (∀ s, s ≠ sid → seriesRows db' s = seriesRows db s ∧
      activeRows db' s = activeRows db s) := by
  obtain ⟨hv, mn, sq, th, hm⟩ := fitModel_ok_inv h
  refine ⟨hv, ?_, ?_, ?_, ?_⟩
  · intro v hv'
    rw [hv]
    obtain ⟨r, hr, rfl⟩ := List.mem_map.mp hv'
    exact Nat.lt_succ_of_le (version_le_maxVersionNum hr)
  · by_cases hc : (seriesRows db sid).isEmpty = true
    · have hnil : seriesRows db sid = [] := List.isEmpty_iff.mp hc
      simp only [seriesVersions, seriesRows, Store.models] at *
      rw [hm, if_pos hc, List.filter_append, hnil]
      simp [hv, hnil]
    · simp only [seriesVersions, seriesRows, Store.models] at *
      rw [hm, if_neg hc, List.filter_append]
      simp [hv, versions_filter_map_deact]
  · by_cases hc : (seriesRows db sid).isEmpty = true
    · have hnil : seriesRows db sid = [] := List.isEmpty_iff.mp hc
      simp only [activeRows, seriesRows, Store.models] at *
      rw [hm, if_pos hc, List.filter_append]
      have h1 : db.models.filter (fun r => r.series_id == sid && r.is_active) = [] := by
        rw [List.filter_eq_nil_iff]
        intro a ha
        have hnb : ¬ (a.series_id == sid) = true := by
          intro hb
          have : a ∈ db.models.filter (fun r => r.series_id == sid) :=
            List.mem_filter.mpr ⟨ha, hb⟩
          rw [hnil] at this
          cases this
        simp [hnb]
      rw [h1]
      simp
    · simp only [activeRows, seriesRows, Store.models] at *
      rw [hm, if_neg hc, List.filter_append, active_filter_map_deact_nil]
      simp
  · intro s hs
    have hbs : (sid == s) = false := by
      rw [beq_eq_false_iff_ne]
      exact fun hss => hs hss.symm
    have hplain := filter_map_deact sid (fun r => r.series_id == s) db.models
      (fun r => by
        by_cases hsid : (r.series_id == sid) = true
        · have hrsid : r.series_id = sid := by simpa using hsid
          simp [deact_series_id, hrsid, hbs]
        · rw [deact_eq_self (by simpa using hsid)])
      (fun r hr => by
        have hrs : r.series_id = s := by simpa using hr
        apply deact_eq_self
        rw [hrs, beq_eq_false_iff_ne]
        exact hs)
    have hact := filter_map_deact sid
      (fun r => r.series_id == s && r.is_active) db.models
      (fun r => by
        by_cases hsid : (r.series_id == sid) = true
        · have hrsid : r.series_id = sid := by simpa using hsid
          simp [deact_series_id, hrsid, hbs]
        · rw [deact_eq_self (by simpa using hsid)])
      (fun r hr => by
        have hrs : r.series_id = s := by
          have hparts := (Bool.and_eq_true _ _).mp hr
          simpa using hparts.1
        apply deact_eq_self
        rw [hrs, beq_eq_false_iff_ne]
        exact hs)
    constructor
    · simp only [seriesRows]
      rw [hm, List.filter_append]
      by_cases hc : (seriesRows db sid).isEmpty = true
      · rw [if_pos hc]
        simp [hbs]
      · rw [if_neg hc, hplain]
        simp [hbs]
    · simp only [activeRows]
      rw [hm, List.filter_append]
      by_cases hc : (seriesRows db sid).isEmpty = true
      · rw [if_pos hc]
        simp [hbs]
      · rw [if_neg hc, hact]
        simp [hbs]

/-- Witness for C2: training "w2" from the empty store commits version
1 = maxVersion(∅) + 1, appends it to the version list, and leaves exactly
one active row. -/
theorem fitModel_version_and_active_invariant_witness :
    (1 : Nat) = maxVersionNum (seriesRows Store.empty "w2") + 1 ∧
    seriesVersions c2wdb "w2" = seriesVersions Store.empty "w2" ++ [1] ∧
    (activeRows c2wdb "w2").length = 1 := by
  have h : fitModel "w2" ⟨[100, 160, 220], [.fin 10, .fin 11, .fin 9], 3⟩
      Store.empty = .ok (⟨"w2", 1, 3⟩, c2wdb) := by
    norm_num +decide [fitModel, fromLists, fit, valMean, valStdSq, qMean,
      qVariance, pyUniqueCount, dedupStep, nondecreasing, maxVersionNum, deact,
      Val.pyEq, Val.isNan, Val.isFin, Val.toQ, seriesRows, Store.empty, c2wdb]
  have hinv := fitModel_version_and_active_invariant "w2"
    ⟨[100, 160, 220], [.fin 10, .fin 11, .fin 9], 3⟩ Store.empty ⟨"w2", 1, 3⟩
    c2wdb h
  exact ⟨hinv.1, hinv.2.2.1, hinv.2.2.2.1⟩

/-- C4: a training request whose values hold fewer than 2 points or are
constant (zero variance) fails with a client validation error (a raised
`ValueError`, surfaced as 422) and commits nothing — the error result
carries no store change. -/
theorem fitModel_rejects_insufficient_or_constant (sid : String) (req : TrainReq)
    (db : Store)
    (h : req.values.length < 2 ∨ ∃ q : ℚ, ∀ v ∈ req.values, v = Val.fin q) :
    isOkE (fitModel sid req db) = false := by
  cases hF : fromLists req.timestamps req.values with
  | error e => simp [fitModel, hF, isOkE]
  | ok data =>
    obtain ⟨hdz, hlen, hne⟩ := fromLists_ok hF
    have hdlen : data.length = req.values.length := by
      rw [hdz, List.length_zip, hlen]
      exact min_self _
    have hvals : data.map Prod.snd = req.values := by
      rw [hdz]
      exact List.map_snd_zip _ _ (le_of_eq hlen.symm)
    have hfe : isOkE (fit data) = false := by
      rcases h with hshort | ⟨q, hconst⟩
      · exact isOkE_fit_short (by rw [hdlen]; exact hshort)
      · by_cases hshort : data.length < 2
        · exact isOkE_fit_short hshort
        · refine isOkE_fit_const hshort ?_
          rw [hvals]
          refine pyUniqueCount_const q req.values ?_ hconst
          intro hvnil
          apply hne
          rw [hvnil] at hvals
          exact List.map_eq_nil_iff.mp hvals
    cases hfit : fit data with
    | error e => simp [fitModel, hF, hfit, isOkE]
    | ok fitted => rw [hfit] at hfe; exact absurd hfe (by simp [isOkE])

/-- Witness for C4: the constant request [5, 5, 5] and the single-point
request [5] are both rejected. -/
theorem fitModel_rejects_insufficient_or_constant_witness :
    isOkE (fitModel "w4" ⟨[100, 160, 220], [.fin 5, .fin 5, .fin 5], 3⟩
      Store.empty) = false ∧
    isOkE (fitModel "w4" ⟨[100], [.fin 5], 3⟩ Store.empty) = false :=
  ⟨fitModel_rejects_insufficient_or_constant "w4"
     ⟨[100, 160, 220], [.fin 5, .fin 5, .fin 5], 3⟩ Store.empty
     (Or.inr ⟨5, by decide⟩),
   fitModel_rejects_insufficient_or_constant "w4" ⟨[100], [.fin 5], 3⟩
     Store.empty (Or.inl (by decide))⟩

/-- C6 amended: the orchestrator never sorts; a request whose timestamps
are not already nondecreasing is rejected by the `TimeSeries` validator
with a 422 validation error (and therefore commits nothing). -/
theorem fitModel_requires_sorted_timestamps (sid : String) (req : TrainReq)
    (db : Store)
    (hlen : req.timestamps.length = req.values.length)
    (hne : req.timestamps ≠ [])
    (hord : nondecreasing req.timestamps = false) :
    fitModel sid req db = .error "DataPoints must be sorted by timestamp" := by
  have hmap : (req.timestamps.zip req.values).map Prod.fst = req.timestamps :=
    List.map_fst_zip _ _ (le_of_eq hlen)
  have hznil : (req.timestamps.zip req.values) ≠ [] := by
    intro hz
    apply hne
    apply List.length_eq_zero.mp
    have hl := congrArg List.length hz
    rw [List.length_zip, hlen, min_self, List.length_nil] at hl
    rw [hlen]
    exact hl
  have hF : fromLists req.timestamps req.values
      = .error "DataPoints must be sorted by timestamp" := by
    simp only [fromLists]
    rw [if_neg (by simp [hlen])]
    rw [if_neg (by simpa using hznil)]
    rw [if_pos (by rw [hmap, hord]; rfl)]
  simp [fitModel, hF]

/-- Witness for C6 amended at the out-of-order timestamps [5, 1, 3]. -/
theorem fitModel_requires_sorted_timestamps_witness :
    ([(5 : Int), 1, 3].length = [Val.fin 1, Val.fin 2, Val.fin 3].length) ∧
    ([(5 : Int), 1, 3] ≠ []) ∧
    nondecreasing [5, 1, 3] = false ∧
    fitModel "w6" ⟨[5, 1, 3], [.fin 1, .fin 2, .fin 3], 3⟩ Store.empty
      = .error "DataPoints must be sorted by timestamp" :=
  ⟨rfl, by decide, by decide,
   fitModel_requires_sorted_timestamps "w6"
     ⟨[5, 1, 3], [.fin 1, .fin 2, .fin 3], 3⟩ Store.empty rfl (by decide) (by decide)⟩

/-- C7 amended: no finiteness check exists: a well-formed training request
(matching lengths, sorted timestamps, at least 2 points) that contains a
NaN value is NOT rejected — `fit_model` succeeds and commits a version,
because NaN merges with nothing in the constant-values set check and
`NaN == 0` is false in the zero-std guard. -/
theorem fitModel_accepts_nonfinite_values (sid : String) (req : TrainReq)
    (db : Store)
    (hlen : req.timestamps.length = req.values.length)
    (hord : nondecreasing req.timestamps = true)
    (h2 : 2 ≤ req.values.length)
    (hnan : Val.nan ∈ req.values) :
    isOkE (fitModel sid req db) = true := by
  have hzlen : (req.timestamps.zip req.values).length = req.values.length := by
    rw [List.length_zip, hlen]
    exact min_self _
  have hmap : (req.timestamps.zip req.values).map Prod.fst = req.timestamps :=
    List.map_fst_zip _ _ (le_of_eq hlen)
  have hdm : (req.timestamps.zip req.values).map Prod.snd = req.values :=
    List.map_snd_zip _ _ (le_of_eq hlen.symm)
  have hF : fromLists req.timestamps req.values
      = .ok (req.timestamps.zip req.values) := by
    simp only [fromLists]
    rw [if_neg (by simp [hlen])]
    rw [if_neg (by
      rw [List.isEmpty_iff]
      intro hz
      have hl := congrArg List.length hz
      rw [hzlen, List.length_nil] at hl
      omega)]
    rw [if_neg (by rw [hmap, hord]; simp)]
  have hnotshort : ¬ (req.timestamps.zip req.values).length < 2 := by
    rw [hzlen]
    omega
  have hcntv : 2 ≤ pyUniqueCount ((req.timestamps.zip req.values).map Prod.snd) := by
    rw [hdm]
    exact pyUniqueCount_ge_two_of_nan h2 hnan
  have hcnt : ¬ ((pyUniqueCount ((req.timestamps.zip req.values).map Prod.snd) == 1) = true) := by
    simp only [beq_iff_eq]
    omega
  have hstd : valStdSq ((req.timestamps.zip req.values).map Prod.snd) = Val.nan := by
    rw [hdm]
    unfold valStdSq
    rw [if_pos (List.any_eq_true.mpr ⟨Val.nan, hnan, rfl⟩)]
  have hfit : isOkE (fit (req.timestamps.zip req.values)) = true := by
    simp only [fit]
    rw [if_neg hnotshort, if_neg hcnt, hstd]
    rfl
  cases hfitc : fit (req.timestamps.zip req.values) with
  | error e => rw [hfitc] at hfit; exact absurd hfit (by simp [isOkE])
  | ok fitted => simp [fitModel, hF, hfitc, isOkE]

/-- Witness for C7 amended at values [1.0, NaN]. -/
theorem fitModel_accepts_nonfinite_values_witness :
    ([(100 : Int), 200].length = [Val.fin 1, Val.nan].length) ∧
    nondecreasing [100, 200] = true ∧
    2 ≤ [Val.fin 1, Val.nan].length ∧
    Val.nan ∈ [Val.fin 1, Val.nan] ∧
    isOkE (fitModel "w7" ⟨[100, 200], [.fin 1, .nan], 3⟩ Store.empty) = true :=
  ⟨rfl, by decide, by decide, by decide,
   fitModel_accepts_nonfinite_values "w7" ⟨[100, 200], [.fin 1, .nan], 3⟩
     Store.empty rfl (by decide) (by decide) (by decide)⟩

/-- C8 amended: only a clean cache miss falls through to the Series Store:
with the same environment otherwise, a raised model-cache read turns the
request into a 500 server error even though the store holds a trained
active model, while a clean miss resolves the model from the store and
returns the classification. -/
theorem predict_clean_miss_falls_through (env : InfEnv)
    (models : List InfModelRow) (log : List LogRow) (sid : String)
    (req : PredReq) (p : ModelParams)
    (h1 : env.predCacheRead req.timestamp = .miss)
    (h2 : env.modelCacheRead = .miss)
    (h3 : getActiveParams models sid = some p)
    (h4 : env.modelCacheWriteOk = true)
    (h5 : env.logWriteOk = true)
    (h6 : env.predCacheWriteOk = true) :
    ({ env with modelCacheRead := .crash } : InfEnv).modelCacheRead = .crash ∧
    (predictEndpoint { env with modelCacheRead := .crash } models log sid req).result
      = .serverError ∧
    (predictEndpoint env models log sid req).result
      = .ok ⟨(predictWithDetailsB req.value p.mean p.std p.threshold).anomaly,
             p.version⟩ := by
  refine ⟨rfl, ?_, ?_⟩
  · simp [predictEndpoint, h1]
  · simp [predictEndpoint, scoreAndLog, h1, h2, h3, h4, h5, h6]

/-- Witness for C8 amended with a concrete store holding an active model
for "s1". -/
theorem predict_clean_miss_falls_through_witness :
    ((⟨fun _ => .miss, .miss, true, true, true⟩ : InfEnv).predCacheRead 300
      = .miss) ∧
    ((⟨fun _ => .miss, .miss, true, true, true⟩ : InfEnv).modelCacheRead
      = .miss) ∧
    getActiveParams [⟨"s1", 10, 1, 3, 1, true⟩] "s1" = some ⟨10, 1, 3, 1⟩ ∧
    (predictEndpoint
        { (⟨fun _ => .miss, .miss, true, true, true⟩ : InfEnv) with
            modelCacheRead := .crash }
        [⟨"s1", 10, 1, 3, 1, true⟩] [] "s1" ⟨300, 15⟩).result = .serverError ∧
    (predictEndpoint (⟨fun _ => .miss, .miss, true, true, true⟩ : InfEnv)
        [⟨"s1", 10, 1, 3, 1, true⟩] [] "s1" ⟨300, 15⟩).result
      = .ok ⟨(predictWithDetailsB 15 10 1 3).anomaly, 1⟩ := by
  have h := predict_clean_miss_falls_through
    ⟨fun _ => .miss, .miss, true, true, true⟩ [⟨"s1", 10, 1, 3, 1, true⟩] []
    "s1" ⟨300, 15⟩ ⟨10, 1, 3, 1⟩ rfl rfl (by norm_num [getActiveParams]) rfl rfl rfl
  exact ⟨rfl, rfl, by norm_num [getActiveParams], h.2.1, h.2.2⟩

/-- C9 amended: a `PredictionLog` append failure escalates: when the model
is resolved and the classification computed, a failing log commit makes the
endpoint return a 500 server error instead of the classification, and no
log row is persisted. -/
theorem predict_log_failure_escalates (env : InfEnv)
    (models : List InfModelRow) (log : List LogRow) (sid : String)
    (req : PredReq) (p : ModelParams)
    (h1 : env.predCacheRead req.timestamp = .miss)
    (h2 : env.modelCacheRead = .hit p)
    (h5 : env.logWriteOk = false) :
    predictEndpoint env models log sid req = ⟨.serverError, log, none⟩ := by
  simp [predictEndpoint, scoreAndLog, h1, h2, h5]

/-- Witness for C9 amended with a concrete model-cache hit. -/
theorem predict_log_failure_escalates_witness :
    ((⟨fun _ => .miss, .hit ⟨10, 1, 3, 1⟩, true, false, true⟩ : InfEnv).predCacheRead 300
      = .miss) ∧
    ((⟨fun _ => .miss, .hit ⟨10, 1, 3, 1⟩, true, false, true⟩ : InfEnv).modelCacheRead
      = .hit ⟨10, 1, 3, 1⟩) ∧
    ((⟨fun _ => .miss, .hit ⟨10, 1, 3, 1⟩, true, false, true⟩ : InfEnv).logWriteOk
      = false) ∧
    predictEndpoint (⟨fun _ => .miss, .hit ⟨10, 1, 3, 1⟩, true, false, true⟩ : InfEnv)
      [] [] "s1" ⟨300, 15⟩ = ⟨.serverError, [], none⟩ :=
  ⟨rfl, rfl, rfl,
   predict_log_failure_escalates
     ⟨fun _ => .miss, .hit ⟨10, 1, 3, 1⟩, true, false, true⟩ [] [] "s1"
     ⟨300, 15⟩ ⟨10, 1, 3, 1⟩ rfl rfl rfl⟩
